import Mathlib

/-!
Shallow embedding of the Arena Blasters simulation kernel (`src/game_env.py`)
and verification of the specification claims about it.

Conventions of the embedding:
* Python floats are modeled as exact rationals (`ℚ`); Python `int` as `ℤ`/`ℕ`.
* Python object identity (such as `pl is self.owner`) is modeled by indices
  into the orchestrator's player list; mutation of a player inside a list is
  modeled with `List.set`.
* Cosmetic-only state (colors are kept, names, particle emission, rendering)
  has no feedback into simulation state and is omitted where noted.
* Fields computed in Python with transcendental float functions
  (`math.cos`, `math.sin`, `math.hypot`) are modeled by carrying the computed
  value as an explicit rational field or parameter, since no claim depends on
  the numeric value of those expressions.
-/

namespace Arena

/-- Axis-aligned rectangle, from class `Rect` in game_env.py (lines 92-108). -/
structure Rect where
  x : ℚ
  y : ℚ
  w : ℚ
  h : ℚ
deriving DecidableEq

def Rect.left (r : Rect) : ℚ := r.x

def Rect.right (r : Rect) : ℚ := r.x + r.w

def Rect.top (r : Rect) : ℚ := r.y

def Rect.bottom (r : Rect) : ℚ := r.y + r.h

/-- Overlap test `Rect.intersects` (game_env.py lines 106-108). -/
def Rect.intersects (a b : Rect) : Prop :=
  ¬ (a.right ≤ b.left ∨ a.left ≥ b.right ∨ a.bottom ≤ b.top ∨ a.top ≥ b.bottom)

instance (a b : Rect) : Decidable (a.intersects b) := by
  unfold Rect.intersects; infer_instance

/-- Tile kinds `TILE_SOLID` / `TILE_THIN` (game_env.py lines 89-90). -/
inductive Tile where
  | solid
  | thin
deriving DecidableEq

/-- Weapon catalog entry, from dataclass `GunDef` (game_env.py lines 128-139). -/
structure GunDef where
  name : String
  color : Nat × Nat × Nat
  dmg : Int
  cooldown : ℚ
  speed : ℚ
  recoil : ℚ
  ammo : Int
  special : String := ""
  pellet : Nat := 1
  spread_deg : ℚ := 0
deriving DecidableEq

/-- Catalog entry `Pistol` (game_env.py line 142); hex color written as an RGB
triple. -/
def pistolDef : GunDef :=
  { name := "Pistol", color := (63, 167, 214), dmg := 18, cooldown := 0.25,
    speed := 1000, recoil := 0, ammo := 18 }

/-- Catalog entry `SMG` (game_env.py line 143). -/
def smgDef : GunDef :=
  { name := "SMG", color := (43, 182, 115), dmg := 9, cooldown := 0.09,
    speed := 950, recoil := 0, ammo := 32, special := "burst3", spread_deg := 5 }

/-- Catalog entry `Shotgun` (game_env.py line 144). -/
def shotgunDef : GunDef :=
  { name := "Shotgun", color := (156, 39, 176), dmg := 24, cooldown := 0.55,
    speed := 820, recoil := 0, ammo := 16, pellet := 7, spread_deg := 10,
    special := "spread" }

/-- Catalog entry `Rifle` (game_env.py line 145). -/
def rifleDef : GunDef :=
  { name := "Rifle", color := (0, 173, 181), dmg := 22, cooldown := 0.22,
    speed := 1150, recoil := 0, ammo := 28 }

/-- Catalog entry `Sniper` (game_env.py line 146). -/
def sniperDef : GunDef :=
  { name := "Sniper", color := (255, 143, 107), dmg := 50, cooldown := 0.85,
    speed := 1700, recoil := 0, ammo := 6, special := "sniper" }

/-- Catalog entry `Rocket` (game_env.py line 147). -/
def rocketDef : GunDef :=
  { name := "Rocket", color := (253, 94, 83), dmg := 55, cooldown := 0.95,
    speed := 720, recoil := 0, ammo := 7, special := "rocket" }

/-- Catalog entry `Laser` (game_env.py line 148). -/
def laserDef : GunDef :=
  { name := "Laser", color := (53, 208, 255), dmg := 70, cooldown := 0.95,
    speed := 0, recoil := 0, ammo := 3, special := "beam" }

/-- The weapon catalog `GUNS` (game_env.py lines 141-149). -/
def GUNS : List GunDef :=
  [pistolDef, smgDef, shotgunDef, rifleDef, sniperDef, rocketDef, laserDef]

/-- Pickup/throwable gun instance with ammo, from class `GunEntity`
(game_env.py lines 151-161).  The `owner` back-reference is modeled as an
optional player index. -/
structure GunEntity where
  gdef : GunDef
  x : ℚ
  y : ℚ
  vx : ℚ := 0
  vy : ℚ := 0
  state : String := "ground"
  owner : Option Nat := none
  radius : ℚ := 16
  ammo : Int
  spawned_pickup : Bool := true
deriving DecidableEq

/-- Agent state, from `Player.__init__` (game_env.py lines 346-370).  The
cosmetic `color`/`name` fields, the `is_bot` flag and the `game` back-reference
are omitted: none of them is read by the simulation logic under verification. -/
structure Player where
  x : ℚ
  y : ℚ
  w : ℚ := 36
  h : ℚ := 54
  vx : ℚ := 0
  vy : ℚ := 0
  on_ground : Bool := false
  drop_through_timer : ℚ := 0
  coyote : ℚ := 0
  jump_buf : ℚ := 0
  face : Int := 1
  hp : Int := 100
  alive : Bool := true
  kos : Nat := 0
  deaths : Nat := 0
  holding : Option GunEntity := none
  attack_cool : ℚ := 0
  invuln : ℚ := 0
  hitlag : ℚ := 0
  last_aim : ℚ × ℚ := (0, 0)
  dash_cd : ℚ := 0
  dash_time : ℚ := 0
  dashing : Bool := false
  max_air_jumps : Nat := 1
  air_jumps : Nat := 1
  tp_cd : ℚ := 0
deriving DecidableEq

/-- Player bounding box `Player.aabb` (game_env.py line 372). -/
def Player.aabb (p : Player) : Rect :=
  { x := p.x - p.w / 2, y := p.y - p.h, w := p.w, h := p.h }

/-- Target-side effect of `Player.damage` (game_env.py lines 375-386).
Returns the updated target together with a flag telling whether this call
crossed the death threshold (the flag drives the attacker's kill-counter
increment, applied by `damageAt` since the attacker lives in the player list).
Particle emission (lines 383-386) is cosmetic and omitted. -/
def Player.damageCore (p : Player) (amount : Int) (knock : ℚ × ℚ) : Player × Bool :=
  if p.invuln > 0 then (p, false)
  else
    let p1 : Player := { p with
      hp := p.hp - amount,
      vx := p.vx + knock.1,
      vy := p.vy + knock.2,
      invuln := 0.35,
      hitlag := 0.05 }
    if p1.hp ≤ 0 then
      ({ p1 with alive := false, deaths := p1.deaths + 1 }, true)
    else
      (p1, false)

/-- Apply `Player.damage` to `players[i]`, with the attacker given by index:
on a lethal hit, an attacker distinct from the target gains a KO
(game_env.py lines 380-382, `attacker.kos += 1`). -/
def damageAt (players : List Player) (i : Nat) (amount : Int) (knock : ℚ × ℚ)
    (attacker : Option Nat) : List Player :=
  match players[i]? with
  | none => players
  | some p =>
    let r := p.damageCore amount knock
    let ps := players.set i r.1
    match attacker with
    | none => ps
    | some j =>
      if r.2 ∧ j ≠ i then
        match ps[j]? with
        | none => ps
        | some a => ps.set j { a with kos := a.kos + 1 }
      else ps

/-- Number of shots emitted by one firing resolution, per special mode
(game_env.py lines 511-530: `shots_fired` accumulated in each branch;
the `spread` branch loops `for _ in range(g.pellet)`). -/
def shotsFired (g : GunDef) : Nat :=
  if g.special = "spread" then g.pellet
  else if g.special = "burst3" then 3
  else if g.special = "sniper" then 1
  else if g.special = "rocket" then 1
  else if g.special = "beam" then 1
  else 1

/-- Ammo/cooldown/holding effect of the LMB-fire block of `Player.update`
(game_env.py lines 498-541).  The construction of the emitted `Bullet`s and
`Beam` (lines 502-530) is modeled separately (`Bullet.update`, `Beam.update`):
this function captures the state of the firing agent and of the fired weapon
entity after the shot resolves.  The cooldown is `g.cooldown` in every branch
(the beam branch sets it at line 528, all others at line 533).  The second
component is the fired weapon entity after the volley (`None` when no shot
was resolved); in the source it is the same mutated object whether or not it
stays held. -/
def Player.fireStep (p : Player) (attack : Bool) : Player × Option GunEntity :=
  if attack ∧ p.attack_cool ≤ 0 then
    match p.holding with
    | none => (p, none)
    | some ent =>
      let n := shotsFired ent.gdef
      let ent2 : GunEntity := { ent with ammo := ent.ammo - n }
      let p2 : Player := { p with attack_cool := ent.gdef.cooldown, holding := some ent2 }
      if ent2.ammo ≤ 0 then ({ p2 with holding := none }, some ent2)
      else (p2, some ent2)
  else (p, none)

/-- Damage amount looked up by `Beam.update` at damage-resolution time
(game_env.py line 328: `dmg = self.owner.holding.gdef.dmg if
self.owner.holding else 40`).  The owner is a valid index in the source; the
out-of-range fallback mirrors the unarmed fallback. -/
def beamDmgOf (ps : List Player) (owner : Nat) : Int :=
  match ps[owner]? with
  | some o =>
    match o.holding with
    | some e => e.gdef.dmg
    | none => 40
  | none => 40

/-- Projectile state, from `Bullet.__init__` (game_env.py lines 204-216).
The owner back-reference is a player index.  The cached `_spd` field is read
only by the homing branch, which is modeled through the `seekVel` parameter of
`Bullet.update` (see there), so it is not carried here. -/
structure Bullet where
  x : ℚ
  y : ℚ
  vx : ℚ
  vy : ℚ
  dmg : Int
  owner : Nat
  life : ℚ := 0.9
  age : ℚ := 0
  r : ℚ := 6
  explosive : Bool := false
  pierce_thin : Bool := false
  proximity : ℚ := 0
  seek : ℚ := 0
deriving DecidableEq

/-- Bullet bounding box `Bullet.aabb` (game_env.py line 218). -/
def Bullet.aabb (b : Bullet) : Rect :=
  { x := b.x - b.r, y := b.y - b.r, w := b.r * 2, h := b.r * 2 }

/-- Explosion loop of `Bullet.explode` (game_env.py lines 282-287): players
are visited in list order; every player that is alive (at visit time) and
whose center lies strictly within the 180 blast radius takes 18 splash damage
with directional knockback, the attacker being the bullet's owner.  Note that
the owner itself is NOT excluded from this loop.  Particle cosmetics
(lines 279-281) are omitted. -/
def explodeAux (owner : Nat) (cx cy : ℚ) : List Nat → List Player → List Player
  | [], ps => ps
  | i :: rest, ps =>
    let ps2 :=
      match ps[i]? with
      | none => ps
      | some pl =>
        if pl.alive ∧
            (pl.x - cx) * (pl.x - cx) +
              ((pl.y - pl.h * 0.5) - cy) * ((pl.y - pl.h * 0.5) - cy) < 180 * 180 then
          damageAt ps i 18 ((if 0 ≤ pl.x - cx then 240 else -240), -160) (some owner)
        else ps
    explodeAux owner cx cy rest ps2

/-- `Bullet.explode` (game_env.py lines 276-287): a no-op for non-explosive
bullets. -/
def Bullet.explode (b : Bullet) (center : ℚ × ℚ) (players : List Player) :
    List Player :=
  if b.explosive then
    explodeAux b.owner center.1 center.2 (List.range players.length) players
  else players

/-- Proximity-detonation scan of `Bullet.update` (game_env.py lines 247-254):
first player, in list order, that is alive, is not the owner, and whose center
is within the proximity radius of the bullet. -/
def Bullet.proxHit (b : Bullet) : Nat → List Player → Option Nat
  | _, [] => none
  | i, pl :: rest =>
    if pl.alive ∧ i ≠ b.owner ∧
        (pl.x - b.x) * (pl.x - b.x) +
          ((pl.y - pl.h * 0.5) - b.y) * ((pl.y - pl.h * 0.5) - b.y)
          ≤ b.proximity * b.proximity then
      some i
    else Bullet.proxHit b (i + 1) rest

/-- Level-collision test of `Bullet.update` against one level rectangle
(game_env.py lines 257-265): a pierced thin platform never blocks; a thin
platform blocks only a downward crossing of its top edge; a solid rectangle
blocks on overlap. -/
def Bullet.blockedByB (b : Bullet) (rect : Rect) : Rect × Tile → Bool
  | (r, Tile.thin) =>
    if b.pierce_thin then false
    else
      decide (rect.bottom > r.top ∧ rect.top < r.top ∧ rect.right > r.left ∧
        rect.left < r.right ∧ 0 < b.vy)
  | (r, Tile.solid) => decide (rect.intersects r)

/-- Direct agent-collision scan of `Bullet.update` (game_env.py lines
268-273): first player, in list order, that is alive, is not the owner, and
whose bounding box overlaps the bullet's. -/
def Bullet.directHit (b : Bullet) (rect : Rect) : Nat → List Player → Option Nat
  | _, [] => none
  | i, pl :: rest =>
    if pl.alive ∧ i ≠ b.owner ∧ rect.intersects pl.aabb then some i
    else Bullet.directHit b rect (i + 1) rest

/-- Aging, homing and integration part of `Bullet.update` (game_env.py lines
221-243).  The homing branch (lines 224-240) recomputes the velocity with
float square-root normalization; it is modeled by the explicit `seekVel`
argument, which stands for the velocity produced by that branch and is used
exactly when `seek > 0` (all bullets under verification have `seek = 0`, for
which the source skips the branch). -/
def Bullet.step (b : Bullet) (dt : ℚ) (seekVel : ℚ × ℚ) : Bullet :=
  let b1 : Bullet := { b with age := b.age + dt }
  let v := if 0 < b1.seek then seekVel else (b1.vx, b1.vy)
  { b1 with vx := v.1, vy := v.2, x := b1.x + v.1 * dt, y := b1.y + v.2 * dt }

/-- One simulation step of a projectile, `Bullet.update` (game_env.py lines
220-274): move, then in order proximity detonation, level collision, direct
agent collision, lifetime.  Returns the moved bullet, the updated player list
and whether the bullet survives the step.  `copysign(200, vx)` is modeled as
`if vx < 0 then -200 else 200` (rationals carry no negative zero). -/
def Bullet.update (b : Bullet) (dt : ℚ) (seekVel : ℚ × ℚ)
    (level : List (Rect × Tile)) (players : List Player) :
    Bullet × List Player × Bool :=
  let b2 := b.step dt seekVel
  let rect := b2.aabb
  if b2.explosive ∧ 0 < b2.proximity ∧ (b2.proxHit 0 players).isSome then
    (b2, b2.explode (b2.x, b2.y) players, false)
  else if level.any (b2.blockedByB rect) then
    (b2, b2.explode (b2.x, b2.y) players, false)
  else
    match b2.directHit rect 0 players with
    | some i =>
      let ps := damageAt players i b2.dmg ((if b2.vx < 0 then -200 else 200), -120)
        (some b2.owner)
      let center : ℚ × ℚ :=
        match ps[i]? with
        | some pl => (pl.x, pl.y - pl.h * 0.5)
        | none => (b2.x, b2.y)
      (b2, b2.explode center ps, false)
    | none => (b2, players, decide (b2.age < b2.life))

/-- Concrete agent used to instantiate the invulnerability theorem: an agent
inside its invulnerability window. -/
def c2p : Player := { x := 100, y := 200, invuln := 0.2, hp := 80 }

/-- Concrete agent holding a shotgun with exactly 1 ammo. -/
def c5p : Player :=
  { x := 0, y := 0,
    holding := some { gdef := shotgunDef, x := 0, y := 0, state := "equipped",
                      owner := some 0, ammo := 1, spawned_pickup := false } }

/-- Concrete agent holding a shotgun with exactly 1 ammo, for the ammo
underflow analysis. -/
def c6p : Player :=
  { x := 0, y := 0,
    holding := some { gdef := shotgunDef, x := 0, y := 0, state := "equipped",
                      owner := some 0, ammo := 1, spawned_pickup := false } }

/-- Concrete agent holding a laser with exactly 1 ammo. -/
def c10p : Player :=
  { x := 0, y := 0,
    holding := some { gdef := laserDef, x := 0, y := 0, state := "equipped",
                      owner := some 0, ammo := 1, spawned_pickup := false } }

/-- Concrete agent holding a pistol with 2 ammo. -/
def c6q : Player :=
  { x := 0, y := 0,
    holding := some { gdef := pistolDef, x := 0, y := 0, ammo := 2 } }

/-- Concrete rocket projectile owned by player 0. -/
def c1Bullet : Bullet :=
  { x := 100, y := 0, vx := 0, vy := 0, dmg := 55, owner := 0, life := 1.2,
    r := 7, explosive := true, proximity := 160 }

/-- Concrete owner agent standing near their own rocket. -/
def c1Owner : Player := { x := 0, y := 27 }

/-- Concrete enemy agent inside the rocket's proximity radius. -/
def c1Victim : Player := { x := 150, y := 27 }

/-- Concrete non-explosive bullet owned by player 0 flying toward player 1. -/
def c1Pistol : Bullet :=
  { x := 140, y := 0, vx := 600, vy := 0, dmg := 18, owner := 0 }

/-- Concrete rocket for the proximity-detonation scenarios. -/
def c7Bullet : Bullet :=
  { x := 100, y := 0, vx := 0, vy := 0, dmg := 55, owner := 0, life := 1.2,
    r := 7, explosive := true, proximity := 160 }

/-- Concrete rocket owner. -/
def c7Owner : Player := { x := 0, y := 27 }

/-- Concrete enemy inside the rocket's proximity radius. -/
def c7Victim : Player := { x := 150, y := 27 }

/-- Concrete enemy outside the rocket's proximity radius. -/
def c7FarVictim : Player := { x := 400, y := 27 }

/-- `Player.respawn` (game_env.py lines 388-392): relocate, zero velocity,
reset health and the alive flag, grant a generous invulnerability window,
clear the held weapon and the attack cooldown, restore air jumps and the
teleporter cooldown. -/
def Player.respawn (p : Player) (pos : ℚ × ℚ) : Player :=
  { p with
    x := pos.1, y := pos.2, vx := 0, vy := 0, hp := 100, alive := true,
    invuln := 0.8, holding := none, attack_cool := 0,
    air_jumps := p.max_air_jumps, tp_cd := 0 }

/-- `Game.give_random_weapon` (game_env.py lines 727-730), with the random
catalog choice passed explicitly; `i` is the receiving player's index (the
new entity's owner back-reference).  The entity is created already equipped,
never on the ground. -/
def give_random_weapon (gdef : GunDef) (i : Nat) (p : Player) : Player :=
  { p with
    holding := some { gdef := gdef, x := p.x, y := p.y - p.h * 0.6,
                      state := "equipped", owner := some i, ammo := gdef.ammo,
                      spawned_pickup := false } }

/-- The orchestrator state touched by the respawn pass: the player list and
the gun-pickup list. -/
structure GameState where
  players : List Player
  guns : List GunEntity
deriving DecidableEq

/-- Respawn pass of `Game.update` (game_env.py lines 890-894): every
not-alive player is respawned at a (randomly chosen, here explicitly passed)
spawn point and handed a fresh random equipped weapon.  No other state is
touched; in particular the gun-pickup list is left as it is. -/
def respawnPhase (gs : GameState) (spawnPos : Nat → ℚ × ℚ)
    (weapon : Nat → GunDef) : GameState :=
  { gs with players := gs.players.mapIdx (fun i p =>
      if p.alive then p
      else give_random_weapon (weapon i) i (p.respawn (spawnPos i))) }

/-- Concrete game state with a single dead agent that is still holding a
weapon, and no ground pickups. -/
def c4Gs : GameState :=
  { players := [{ x := 50, y := 60, alive := false, hp := 0,
                  holding := some { gdef := pistolDef, x := 50, y := 28,
                                    ammo := 5, state := "equipped",
                                    owner := some 0,
                                    spawned_pickup := false } }],
    guns := [] }

/-- Control-input record consumed by `Player.update` (game_env.py lines
407-413).  `aim = none` models a record with no aim key, in which case
`inputs.get("aim", ...)` returns the positional default. -/
structure Inputs where
  left : Bool := false
  right : Bool := false
  down : Bool := false
  jump_pressed : Bool := false
  attack : Bool := false
  rmb_release : Bool := false
  dash : Bool := false
  aim : Option (ℚ × ℚ) := none
deriving DecidableEq

/-- Aim resolution of `Player.update` (game_env.py line 413): the aim point
used by the rest of the update (facing, firing angle, dash direction,
throwing) is the record's aim if the key is present, else the positional
default `(x + face*100, y - 40)`. -/
def Player.resolveAim (p : Player) (inp : Inputs) : ℚ × ℚ :=
  match inp.aim with
  | some a => a
  | none => (p.x + (p.face : ℚ) * 100, p.y - 40)

/-- Storage of the resolved aim (game_env.py line 414):
`self.last_aim = aim`, unconditionally. -/
def Player.updateAimState (p : Player) (inp : Inputs) : Player :=
  { p with last_aim := p.resolveAim inp }

/-- Concrete agent whose recorded last valid aim differs from the positional
default. -/
def c8p : Player := { x := 0, y := 0, face := 1, last_aim := (5, 5) }

/-- Invulnerability decay performed once per agent tick by `Player.update`
(game_env.py line 399): `self.invuln = max(0.0, self.invuln - dt)`. -/
def Player.decayInvuln (p : Player) (dt : ℚ) : Player :=
  { p with invuln := max 0 (p.invuln - dt) }

/-- One damage-relevant event on an agent's timeline: one tick's
invulnerability decay (dt of simulated time elapsing, line 399), or one
incoming damage application (lines 375-386). -/
inductive DmgEv where
  | decay (dt : ℚ)
  | hit (amount : Int) (knock : ℚ × ℚ)
deriving DecidableEq

/-- Apply one timeline event to an agent. -/
def applyDmgEv (p : Player) : DmgEv → Player
  | DmgEv.decay dt => p.decayInvuln dt
  | DmgEv.hit a k => (p.damageCore a k).1

/-- Run a timeline of events, in order. -/
def runDmgEvs (p : Player) (evs : List DmgEv) : Player :=
  evs.foldl applyDmgEv p

/-- Simulated time elapsing along a timeline: the sum of its decay dts. -/
def decayTotal : List DmgEv → ℚ
  | [] => 0
  | DmgEv.decay dt :: rest => dt + decayTotal rest
  | DmgEv.hit _ _ :: rest => decayTotal rest

/-- A volley: consecutive damage applications with no tick boundary between
them, as for the pellets of one shotgun blast that all connect during a
single bullet-resolution pass. -/
def applyHits (p : Player) (hits : List (Int × ℚ × ℚ)) : Player :=
  hits.foldl (fun q h => (q.damageCore h.1 h.2).1) p

/-- Concrete vulnerable agent for the invulnerability-window theorem. -/
def c9p : Player := { x := 0, y := 0 }

/-- `clamp` (game_env.py line 72). -/
def clampQ (v lo hi : ℚ) : ℚ := if v < lo then lo else if v > hi then hi else v

/-- Squared point-to-segment distance, following `seg_point_dist`
(game_env.py lines 76-83) including its `1e-6` epsilon guard.  The source
returns the square root of this value and compares it against the
nonnegative threshold `width*0.5 + 18`; comparing this square against the
squared threshold is an equivalent test. -/
def seg_point_distSq (ax ay bx bY px py : ℚ) : ℚ :=
  let abx := bx - ax
  let aby := bY - ay
  let apx := px - ax
  let apy := py - ay
  let ab2 := abx * abx + aby * aby + 1 / 1000000
  let t := clampQ ((apx * abx + apy * aby) / ab2) 0 1
  let cx := ax + abx * t
  let cy := ay + aby * t
  (px - cx) * (px - cx) + (py - cy) * (py - cy)

/-- Beam state, from `Beam.__init__` (game_env.py lines 295-318).  The owner
back-reference is a player index; `hit_once` is the set of player indices
already damaged by this cast.  `cosAng` carries the float value
`cos(self.ang)` read by the knockback; the precomputed ray endpoint
`(ex, ey)` is the result of the construction-time solid-geometry raycast
(lines 305-318), whose float trigonometry is likewise carried as data: the
claims under verification depend only on the stored endpoint, never on how it
was computed. -/
structure Beam where
  owner : Nat
  sx : ℚ
  sy : ℚ
  cosAng : ℚ
  warmup : ℚ := 0.35
  active_time : ℚ := 0.16
  width : ℚ := 38
  age : ℚ := 0
  hit_once : List Nat := []
  ex : ℚ
  ey : ℚ
deriving DecidableEq

/-- Active-phase predicate `Beam.active` (game_env.py lines 319-320). -/
def Beam.activeP (bm : Beam) : Prop :=
  bm.age ≥ bm.warmup ∧ bm.age < bm.warmup + bm.active_time

instance (bm : Beam) : Decidable bm.activeP := by
  unfold Beam.activeP; infer_instance

/-- Damage loop of `Beam.update` during the active phase (game_env.py lines
324-330): players in index order; each one that is alive, is not the owner,
lies within half-width + 18 of the beam segment, and is not yet in
`hit_once`, takes the resolution-time damage `beamDmgOf` with the beam's
knockback and is recorded in `hit_once`.  The third result component logs the
indices damaged during this pass, in order. -/
def beamAux (bm : Beam) : List Nat → List Player → List Nat →
    List Player × List Nat × List Nat
  | [], ps, hit => (ps, hit, [])
  | i :: rest, ps, hit =>
    match ps[i]? with
    | none => beamAux bm rest ps hit
    | some pl =>
      if pl.alive ∧ i ≠ bm.owner ∧
          seg_point_distSq bm.sx bm.sy bm.ex bm.ey pl.x (pl.y - pl.h * 0.5)
            ≤ (bm.width * 0.5 + 18) * (bm.width * 0.5 + 18) ∧
          i ∉ hit then
        let ps2 := damageAt ps i (beamDmgOf ps bm.owner) (bm.cosAng * 80, -60)
          (some bm.owner)
        let r := beamAux bm rest ps2 (i :: hit)
        (r.1, r.2.1, i :: r.2.2)
      else beamAux bm rest ps hit

/-- One step of `Beam.update` (game_env.py lines 321-331): the age advances
by dt, the damage loop runs if the beam is in its active phase, and the beam
survives until its fade ends.  The last result component is the damage log of
this step. -/
def Beam.update (bm : Beam) (dt : ℚ) (players : List Player) :
    Beam × List Player × Bool × List Nat :=
  let bm2 : Beam := { bm with age := bm.age + dt }
  if bm2.activeP then
    let r := beamAux bm2 (List.range players.length) players bm2.hit_once
    ({ bm2 with hit_once := r.2.1 }, r.1,
      decide (bm2.age < bm2.warmup + bm2.active_time + 0.12), r.2.2)
  else
    (bm2, players, decide (bm2.age < bm2.warmup + bm2.active_time + 0.12), [])

/-- Run a beam over a whole sequence of ticks, concatenating the per-step
damage logs. -/
def Beam.run (bm : Beam) (players : List Player) :
    List ℚ → Beam × List Player × List Nat
  | [] => (bm, players, [])
  | dt :: rest =>
    let r := bm.update dt players
    let r2 := Beam.run r.1 r.2.1 rest
    (r2.1, r2.2.1, r.2.2.2 ++ r2.2.2)

/-- Concrete laser beam cast by player 0 along the horizontal axis. -/
def c3Beam : Beam :=
  { owner := 0, sx := 0, sy := 0, cosAng := 1, ex := 500, ey := 0 }

/-- Concrete beam owner. -/
def c3Owner : Player := { x := 0, y := 27 }

/-- Concrete enemy standing on the beam segment. -/
def c3Victim : Player := { x := 200, y := 27 }

/-! ### Theorems -/

/-- Setting an index of a list to the value it already holds is the identity. -/
theorem set_self_of_getElem {α : Type} (l : List α) (i : Nat) (a : α)
    (h : l[i]? = some a) : l.set i a = l := by
  induction l generalizing i with
  | nil => simp at h
  | cons x xs ih =>
    cases i with
    | zero => simp_all
    | succ n =>
      simp only [List.getElem?_cons_succ] at h
      simp [ih n h]

/-- C2: for every agent whose invulnerability timer is strictly positive, a
damage application is ignored entirely: the agent comes back unchanged (health,
knockback, hitlag, invulnerability, death and counters included), no death is
reported, and the surrounding player list (attacker kill counter included) is
exactly as before the call. -/
theorem c2_invulnerable_damage_ignored
    (p : Player) (amount : Int) (knock : ℚ × ℚ) (players : List Player)
    (i : Nat) (att : Option Nat)
    (h : p.invuln > 0) (hmem : players[i]? = some p) :
    p.damageCore amount knock = (p, false) ∧
    damageAt players i amount knock att = players := by
  have hcore : p.damageCore amount knock = (p, false) := by
    unfold Player.damageCore
    rw [if_pos h]
  refine ⟨hcore, ?_⟩
  unfold damageAt
  rw [hmem]
  simp only [hcore]
  cases att with
  | none => exact set_self_of_getElem players i p hmem
  | some j => simp [set_self_of_getElem players i p hmem]

/-- Witness for `c2_invulnerable_damage_ignored` at a concrete input. -/
theorem c2_invulnerable_damage_ignored_witness :
    c2p.damageCore 18 (200, -120) = (c2p, false) ∧
    damageAt [c2p] 0 18 (200, -120) (some 1) = [c2p] :=
  c2_invulnerable_damage_ignored c2p 18 (200, -120) [c2p] 0 (some 1)
    (by norm_num [c2p]) (by simp)

/-- Every catalog weapon emits at least one shot per firing resolution. -/
theorem guns_shots_fired_pos : ∀ g ∈ GUNS, 1 ≤ shotsFired g := by decide

/-- Pistol volley size. -/
theorem shotsFired_pistol : shotsFired pistolDef = 1 := by decide

/-- Shotgun volley size: one shot per pellet. -/
theorem shotsFired_shotgun : shotsFired shotgunDef = 7 := by decide

/-- Laser volley size. -/
theorem shotsFired_laser : shotsFired laserDef = 1 := by decide

/-- Helper: a firing resolution whose volley consumes all remaining ammo
clears the holding slot. -/
theorem fireStep_disarms_of_ammo_consumed
    (p : Player) (ent : GunEntity)
    (h1 : p.holding = some ent)
    (hle : ent.ammo - (shotsFired ent.gdef : Int) ≤ 0)
    (hc : p.attack_cool ≤ 0) :
    (p.fireStep true).1.holding = none := by
  simp only [Player.fireStep]
  split
  · rw [h1]
    simp only [if_pos hle]
  · rename_i hgate
    exact absurd ⟨by simp, hc⟩ hgate

/-- C5: firing a weapon held with exactly 1 ammo remaining leaves the agent
unarmed immediately after the shot resolves, for every catalog weapon
(multi-pellet and burst modes included). -/
theorem c5_fire_last_ammo_disarms
    (p : Player) (ent : GunEntity)
    (h1 : p.holding = some ent) (h2 : ent.gdef ∈ GUNS) (h3 : ent.ammo = 1)
    (hc : p.attack_cool ≤ 0) :
    (p.fireStep true).1.holding = none := by
  have hn : 1 ≤ shotsFired ent.gdef := guns_shots_fired_pos _ h2
  exact fireStep_disarms_of_ammo_consumed p ent h1 (by omega) hc

/-- Witness for `c5_fire_last_ammo_disarms` at a concrete input. -/
theorem c5_fire_last_ammo_disarms_witness :
    (c5p.fireStep true).1.holding = none :=
  c5_fire_last_ammo_disarms c5p _ rfl (by simp [GUNS]) rfl (by norm_num [c5p])

/-- C6 counterexample: a shotgun fired with 1 ammo remaining emits 7 pellets
and leaves the fired weapon entity with ammo -6, which is negative: the
remaining-ammo field is not clamped at zero. -/
theorem c6_counterexample :
    ((c6p.fireStep true).2.map GunEntity.ammo) = some (-6) ∧ ((-6 : Int) < 0) := by
  constructor
  · norm_num [c6p, Player.fireStep, shotsFired_shotgun]
  · decide

/-- C6 amended: the fired weapon entity's ammo field can go negative, but the
holder never retains it in that state: after a firing resolution the held
weapon, if any, has strictly positive ammo (the entity is discarded whenever
its ammo drops to 0 or below). -/
theorem c6_retained_weapon_positive_ammo
    (p : Player) (e2 : GunEntity) (hc : p.attack_cool ≤ 0)
    (h : (p.fireStep true).1.holding = some e2) :
    0 < e2.ammo := by
  simp only [Player.fireStep] at h
  rw [if_pos (show True ∧ p.attack_cool ≤ 0 from ⟨trivial, hc⟩)] at h
  cases hh : p.holding with
  | none => simp [hh] at h
  | some ent =>
    simp only [hh] at h
    split at h
    · simp at h
    · rename_i hgt
      simp only [Option.some.injEq] at h
      subst h
      show 0 < ent.ammo - (shotsFired ent.gdef : Int)
      omega

/-- Witness for `c6_retained_weapon_positive_ammo` at a concrete input: an
agent holding a pistol with 2 ammo retains it after firing once. -/
theorem c6_retained_weapon_positive_ammo_witness :
    0 < ({ gdef := pistolDef, x := 0, y := 0, ammo := 1 } : GunEntity).ammo :=
  c6_retained_weapon_positive_ammo c6q _ (by norm_num [c6q])
    (by norm_num [c6q, Player.fireStep, shotsFired_pistol])

/-- C10: the damage amount of a beam is read from its owner's currently-held
weapon at damage-resolution time (with a fixed fallback of 40 when the owner
holds nothing), not at cast time; hence a laser cast that consumes the last
ammo (discarding the weapon at cast) resolves the fallback 40 instead of the
laser's catalog damage 70. -/
theorem c10_beam_damage_resolution_fallback
    (p : Player) (ent : GunEntity) (ps : List Player) (i : Nat)
    (h1 : p.holding = some ent) (h2 : ent.gdef = laserDef) (h3 : ent.ammo = 1)
    (hc : p.attack_cool ≤ 0)
    (hps : ps[i]? = some (p.fireStep true).1) :
    (p.fireStep true).1.holding = none ∧
    beamDmgOf ps i = 40 ∧
    laserDef.dmg = 70 ∧
    (∀ (qs : List Player) (j : Nat) (q : Player) (e : GunEntity),
      qs[j]? = some q → q.holding = some e → beamDmgOf qs j = e.gdef.dmg) := by
  have hdisarm : (p.fireStep true).1.holding = none := by
    refine fireStep_disarms_of_ammo_consumed p ent h1 ?_ hc
    rw [h2, h3, shotsFired_laser]
    norm_num
  refine ⟨hdisarm, ?_, rfl, ?_⟩
  · simp only [beamDmgOf, hps, hdisarm]
  · intro qs j q e hq he
    simp only [beamDmgOf, hq, he]

/-- Witness for `c10_beam_damage_resolution_fallback` at a concrete input. -/
theorem c10_beam_damage_resolution_fallback_witness :
    (c10p.fireStep true).1.holding = none ∧
    beamDmgOf [(c10p.fireStep true).1] 0 = 40 ∧
    laserDef.dmg = 70 ∧
    (∀ (qs : List Player) (j : Nat) (q : Player) (e : GunEntity),
      qs[j]? = some q → q.holding = some e → beamDmgOf qs j = e.gdef.dmg) :=
  c10_beam_damage_resolution_fallback c10p _ _ 0 rfl rfl rfl
    (by norm_num [c10p]) rfl

/-- A direct-hit scan never returns the owner index. -/
theorem directHit_ne_owner (b : Bullet) (rect : Rect) (k : Nat)
    (ps : List Player) (i : Nat) (h : b.directHit rect k ps = some i) :
    i ≠ b.owner := by
  induction ps generalizing k with
  | nil => simp [Bullet.directHit] at h
  | cons pl rest ih =>
    unfold Bullet.directHit at h
    split at h
    · rename_i hcond
      injection h with h
      subst h
      exact hcond.2.1
    · exact ih _ h

/-- A proximity scan never returns the owner index. -/
theorem proxHit_ne_owner (b : Bullet) (k : Nat)
    (ps : List Player) (i : Nat) (h : b.proxHit k ps = some i) :
    i ≠ b.owner := by
  induction ps generalizing k with
  | nil => simp [Bullet.proxHit] at h
  | cons pl rest ih =>
    unfold Bullet.proxHit at h
    split at h
    · rename_i hcond
      injection h with h
      subst h
      exact hcond.2.1
    · exact ih _ h

/-- Replacing a list entry by one with the same hp leaves the hp view of the
list unchanged everywhere. -/
theorem getElem?_set_map_hp (ps : List Player) (j : Nat) (a2 a3 : Player)
    (hj : ps[j]? = some a2) (hhp : a3.hp = a2.hp) (o : Nat) :
    ((ps.set j a3)[o]?).map Player.hp = (ps[o]?).map Player.hp := by
  by_cases h : j = o
  · subst h
    obtain ⟨hlt, -⟩ := List.getElem?_eq_some_iff.mp hj
    rw [List.getElem?_set_self hlt, hj]
    simp [hhp]
  · rw [List.getElem?_set_ne h]

/-- Damage aimed at index `i` never changes the health at a different index:
the only other entry the call may touch is the attacker, whose kill counter
(not health) is incremented. -/
theorem damageAt_map_hp_ne (ps : List Player) (i : Nat) (a : Int) (k : ℚ × ℚ)
    (att : Option Nat) (o : Nat) (ho : o ≠ i) :
    ((damageAt ps i a k att)[o]?).map Player.hp = (ps[o]?).map Player.hp := by
  unfold damageAt
  cases hpi : ps[i]? with
  | none => rfl
  | some p =>
    have hps1 : ((ps.set i (p.damageCore a k).1)[o]?).map Player.hp
        = (ps[o]?).map Player.hp := by
      rw [List.getElem?_set_ne ho.symm]
    cases att with
    | none => exact hps1
    | some j =>
      simp only
      split
      · cases hj : (ps.set i (p.damageCore a k).1)[j]? with
        | none => exact hps1
        | some a2 =>
          dsimp only
          rw [getElem?_set_map_hp _ j a2 { a2 with kos := a2.kos + 1 } hj rfl o]
          exact hps1
      · exact hps1

/-- A non-explosive bullet's explosion is a no-op (game_env.py line 277). -/
theorem explode_nonexplosive (b : Bullet) (c : ℚ × ℚ) (ps : List Player)
    (h : b.explosive = false) : b.explode c ps = ps := by
  simp [Bullet.explode, h]

/-- C1 counterexample: a rocket owned by agent 0, proximity-detonated by
agent 1, splash-damages its own owner: the owner's health drops from 100 to
82.  The claim that a projectile never damages its owner is false for the
splash damage of its explosion. -/
theorem c1_counterexample :
    (((c1Bullet.update (1/60) (0, 0) [] [c1Owner, c1Victim]).2.1)[0]?).map
        Player.hp = some 82 ∧ (82 : Int) < 100 := by
  constructor
  · norm_num [c1Bullet, c1Owner, c1Victim, Bullet.update, Bullet.step,
      Bullet.aabb, Bullet.proxHit, Bullet.explode, explodeAux, damageAt,
      Player.damageCore, (by decide : List.range 2 = [0, 1])]
  · decide

/-- C1 amended: a projectile's direct agent-collision hit and its
proximity-detonation trigger never select the owner, so a NON-explosive
projectile never changes its owner's health in any step; the splash damage of
an explosive projectile's detonation, however, does not exclude the owner
(see `c1_counterexample`). -/
theorem c1_amended_nonexplosive_owner_unhurt
    (b : Bullet) (dt : ℚ) (sv : ℚ × ℚ) (level : List (Rect × Tile))
    (players : List Player) (h : b.explosive = false) :
    (((b.update dt sv level players).2.1)[b.owner]?).map Player.hp =
      (players[b.owner]?).map Player.hp := by
  have hexp2 : (b.step dt sv).explosive = false := h
  have howner : (b.step dt sv).owner = b.owner := rfl
  simp only [Bullet.update, hexp2, Bool.false_eq_true, false_and, if_false]
  split
  · rw [explode_nonexplosive _ _ _ hexp2]
  · split
    · rename_i i hdh
      rw [explode_nonexplosive _ _ _ hexp2]
      have hne : b.owner ≠ i := by
        have hio := directHit_ne_owner _ _ _ _ _ hdh
        rw [howner] at hio
        exact fun hh => hio hh.symm
      dsimp only
      exact damageAt_map_hp_ne players i _ _ _ b.owner hne
    · rfl

/-- Witness for `c1_amended_nonexplosive_owner_unhurt` at a concrete input. -/
theorem c1_amended_nonexplosive_owner_unhurt_witness :
    (((c1Pistol.update (1/60) (0, 0) [] [c1Owner, c1Victim]).2.1)[0]?).map
        Player.hp = (([c1Owner, c1Victim] : List Player)[0]?).map Player.hp :=
  c1_amended_nonexplosive_owner_unhurt c1Pistol (1/60) (0, 0) []
    [c1Owner, c1Victim] rfl

/-- C7: an explosive projectile with a positive proximity radius detonates in
any step in which, after the projectile moves, the proximity scan finds some
living non-owner agent within the radius: the step then resolves the
explosion at the projectile's own center on the untouched player list (so the
direct-hit damage of the same tick is never applied: proximity takes
precedence) and removes the projectile, which is why it can detonate only
once.  Conversely, in a step where the scan finds nobody and nothing else
stops the projectile, no detonation of any kind happens. -/
theorem c7_rocket_proximity_detonation
    (b : Bullet) (dt : ℚ) (sv : ℚ × ℚ) (level : List (Rect × Tile))
    (players : List Player)
    (hexp : b.explosive = true) (hprox : 0 < b.proximity) :
    (∀ i, (b.step dt sv).proxHit 0 players = some i →
      b.update dt sv level players =
        (b.step dt sv,
         (b.step dt sv).explode ((b.step dt sv).x, (b.step dt sv).y) players,
         false)) ∧
    ((b.step dt sv).proxHit 0 players = none →
      level.any ((b.step dt sv).blockedByB (b.step dt sv).aabb) = false →
      (b.step dt sv).directHit (b.step dt sv).aabb 0 players = none →
      b.update dt sv level players =
        (b.step dt sv, players,
         decide ((b.step dt sv).age < (b.step dt sv).life))) := by
  have hexp2 : (b.step dt sv).explosive = true := hexp
  have hprox2 : 0 < (b.step dt sv).proximity := hprox
  constructor
  · intro i hi
    simp only [Bullet.update, hexp2, hi, Option.isSome_some, true_and, and_true,
      if_pos, hprox2]
  · intro hnone hlev hdh
    simp only [Bullet.update, hnone, Option.isSome_none, Bool.false_eq_true,
      and_false, if_false, hlev, hdh]

/-- Witness for `c7_rocket_proximity_detonation`: the same concrete rocket in
a detonating and in a non-detonating configuration. -/
theorem c7_rocket_proximity_detonation_witness :
    (c7Bullet.update (1/60) (0, 0) [] [c7Owner, c7Victim] =
      (c7Bullet.step (1/60) (0, 0),
       (c7Bullet.step (1/60) (0, 0)).explode
         ((c7Bullet.step (1/60) (0, 0)).x, (c7Bullet.step (1/60) (0, 0)).y)
         [c7Owner, c7Victim],
       false)) ∧
    (c7Bullet.update (1/60) (0, 0) [] [c7Owner, c7FarVictim] =
      (c7Bullet.step (1/60) (0, 0), [c7Owner, c7FarVictim],
       decide ((c7Bullet.step (1/60) (0, 0)).age <
         (c7Bullet.step (1/60) (0, 0)).life))) := by
  constructor
  · exact (c7_rocket_proximity_detonation c7Bullet (1/60) (0, 0) []
      [c7Owner, c7Victim] rfl (by norm_num [c7Bullet])).1 1
      (by norm_num [c7Bullet, c7Owner, c7Victim, Bullet.step, Bullet.proxHit])
  · exact (c7_rocket_proximity_detonation c7Bullet (1/60) (0, 0) []
      [c7Owner, c7FarVictim] rfl (by norm_num [c7Bullet])).2
      (by norm_num [c7Bullet, c7Owner, c7FarVictim, Bullet.step, Bullet.proxHit])
      rfl
      (by norm_num [c7Bullet, c7Owner, c7FarVictim, Bullet.step, Bullet.directHit,
        Bullet.aabb, Rect.intersects, Player.aabb, Rect.left, Rect.right,
        Rect.top, Rect.bottom])

/-- C4 counterexample: a dead agent that is holding a pistol goes through the
respawn pass, and afterwards the world's gun list is still empty: no
ground-state pickup carrying the dead agent's weapon ever appears.  The held
weapon is silently discarded, not dropped. -/
theorem c4_counterexample :
    (c4Gs.players[0]?).map Player.alive = some false ∧
    (c4Gs.players[0]?).map (fun p => p.holding.isSome) = some true ∧
    (respawnPhase c4Gs (fun _ => (100, 100)) (fun _ => rifleDef)).guns = [] :=
  ⟨rfl, rfl, rfl⟩

/-- C4 amended: when an agent dies holding a weapon, that weapon is never
spawned on the ground: the respawn pass leaves the gun-pickup list exactly
unchanged, and the dead agent is instead handed a fresh equipped weapon
(state "equipped", never "ground").  Ground pickups therefore only appear
through the orchestrator's spawn cadence. -/
theorem c4_amended_killed_agents_drop_nothing
    (gs : GameState) (sp : Nat → ℚ × ℚ) (wp : Nat → GunDef) :
    (respawnPhase gs sp wp).guns = gs.guns ∧
    (∀ i p, gs.players[i]? = some p → p.alive = false →
      ∃ e : GunEntity,
        ((respawnPhase gs sp wp).players[i]?).map Player.holding =
          some (some e) ∧ e.state = "equipped" ∧ e.gdef = wp i) := by
  refine ⟨rfl, ?_⟩
  intro i p hp hdead
  refine ⟨{ gdef := wp i, x := (p.respawn (sp i)).x,
            y := (p.respawn (sp i)).y - (p.respawn (sp i)).h * 0.6,
            state := "equipped", owner := some i, ammo := (wp i).ammo,
            spawned_pickup := false }, ?_, rfl, rfl⟩
  simp [respawnPhase, List.getElem?_mapIdx, hp, hdead, give_random_weapon]

/-- Witness for `c4_amended_killed_agents_drop_nothing` at a concrete input. -/
theorem c4_amended_killed_agents_drop_nothing_witness :
    (respawnPhase c4Gs (fun _ => (100, 100)) (fun _ => rifleDef)).guns =
      c4Gs.guns ∧
    (∀ (i : Nat) (p : Player), c4Gs.players[i]? = some p → p.alive = false →
      ∃ e : GunEntity,
        (((respawnPhase c4Gs (fun _ => (100, 100))
            (fun _ => rifleDef)).players[i]?).map Player.holding =
          some (some e)) ∧ e.state = "equipped" ∧ e.gdef = rifleDef) :=
  c4_amended_killed_agents_drop_nothing c4Gs (fun _ => (100, 100))
    (fun _ => rifleDef)

/-- C8 counterexample: for an agent whose last valid aim is (5, 5), an input
record with a missing aim point resolves to the positional default
(x + face*100, y - 40) = (100, -40), not to the last valid aim. -/
theorem c8_counterexample :
    c8p.resolveAim {} = (100, -40) ∧ c8p.last_aim = (5, 5) ∧
    ((100 : ℚ), (-40 : ℚ)) ≠ ((5 : ℚ), (5 : ℚ)) := by
  refine ⟨?_, rfl, by norm_num⟩
  norm_num [c8p, Player.resolveAim]

/-- C8 amended: a missing aim point is replaced by the positional default
`(x + face*100, y - 40)` — derived from the agent's position and facing, not
from its last valid aim — and the update then overwrites `last_aim` with that
resolved value; when an aim point is present it is used as given (the source
performs no NaN filtering). -/
theorem c8_amended_missing_aim_positional_default
    (p : Player) (inp : Inputs) (h : inp.aim = none) :
    p.resolveAim inp = (p.x + (p.face : ℚ) * 100, p.y - 40) ∧
    (p.updateAimState inp).last_aim = (p.x + (p.face : ℚ) * 100, p.y - 40) ∧
    (∀ (q : Player) (inp2 : Inputs) (a : ℚ × ℚ),
      inp2.aim = some a → q.resolveAim inp2 = a) := by
  have h1 : p.resolveAim inp = (p.x + (p.face : ℚ) * 100, p.y - 40) := by
    simp only [Player.resolveAim, h]
  refine ⟨h1, ?_, ?_⟩
  · simp only [Player.updateAimState, h1]
  · intro q inp2 a ha
    simp only [Player.resolveAim, ha]

/-- Witness for `c8_amended_missing_aim_positional_default` at a concrete
input. -/
theorem c8_amended_missing_aim_positional_default_witness :
    c8p.resolveAim {} = (c8p.x + (c8p.face : ℚ) * 100, c8p.y - 40) ∧
    (c8p.updateAimState {}).last_aim =
      (c8p.x + (c8p.face : ℚ) * 100, c8p.y - 40) ∧
    (∀ (q : Player) (inp2 : Inputs) (a : ℚ × ℚ),
      inp2.aim = some a → q.resolveAim inp2 = a) :=
  c8_amended_missing_aim_positional_default c8p {} rfl

/-- Invulnerability after one damage call: unchanged when it was already
running, otherwise reset to the 0.35 window. -/
theorem damageCore_invuln (p : Player) (a : Int) (k : ℚ × ℚ) :
    ((p.damageCore a k).1).invuln = if 0 < p.invuln then p.invuln else 0.35 := by
  unfold Player.damageCore
  split
  · rfl
  · dsimp only
    split <;> rfl

/-- A vulnerable target's health drops by exactly the damage amount. -/
theorem damageCore_hp_of_vulnerable (p : Player) (a : Int) (k : ℚ × ℚ)
    (h : p.invuln ≤ 0) : ((p.damageCore a k).1).hp = p.hp - a := by
  unfold Player.damageCore
  rw [if_neg (show ¬ p.invuln > 0 by linarith)]
  dsimp only
  split <;> rfl

/-- An invulnerable target is returned unchanged by a damage call. -/
theorem damageCore_fst_of_invuln (p : Player) (a : Int) (k : ℚ × ℚ)
    (h : 0 < p.invuln) : (p.damageCore a k).1 = p := by
  unfold Player.damageCore
  rw [if_pos h]

/-- Along any timeline, the invulnerability timer can sink below its starting
value by at most the simulated time that elapsed. -/
theorem runDmgEvs_invuln_ge (p : Player) (evs : List DmgEv) :
    p.invuln - decayTotal evs ≤ (runDmgEvs p evs).invuln := by
  induction evs generalizing p with
  | nil => simp [runDmgEvs, decayTotal]
  | cons e rest ih =>
    cases e with
    | decay dt =>
      have h1 := ih (p.decayInvuln dt)
      have h2 : p.invuln - dt ≤ (p.decayInvuln dt).invuln := by
        simp only [Player.decayInvuln]
        exact le_max_right _ _
      simp only [runDmgEvs, List.foldl_cons, decayTotal] at h1 ⊢
      simp only [applyDmgEv]
      linarith
    | hit a k =>
      have h1 := ih (p.damageCore a k).1
      have h2 : p.invuln ≤ ((p.damageCore a k).1).invuln := by
        rw [damageCore_invuln]
        split
        · exact le_refl _
        · rename_i hv
          push_neg at hv
          linarith [show (0 : ℚ) < 0.35 by norm_num]
      simp only [runDmgEvs, List.foldl_cons, decayTotal] at h1 ⊢
      simp only [applyDmgEv]
      linarith

/-- A volley reaching an invulnerable agent leaves it entirely unchanged. -/
theorem applyHits_of_invuln (p : Player) (hits : List (Int × ℚ × ℚ))
    (h : 0 < p.invuln) : applyHits p hits = p := by
  induction hits with
  | nil => rfl
  | cons hh rest ih =>
    simp only [applyHits, List.foldl_cons] at ih ⊢
    rw [damageCore_fst_of_invuln _ _ _ h]
    exact ih

/-- C9: every successful damage application grants the target the 0.35-second
invulnerability window; consequently two successful damage applications on
the same agent are separated by at least 0.35 seconds of simulated time (the
per-tick decay being `invuln = max(0, invuln - dt)`), and a volley of
same-tick damage applications — such as the seven pellets of one shotgun
blast — reduces health by at most one pellet's damage amount, since the first
pellet that connects makes the target invulnerable to the rest. -/
theorem c9_invulnerability_window :
    (∀ (p : Player) (a : Int) (k : ℚ × ℚ), p.invuln ≤ 0 →
      ((p.damageCore a k).1).invuln = 0.35) ∧
    (∀ (p : Player) (a : Int) (k : ℚ × ℚ) (evs : List DmgEv), p.invuln ≤ 0 →
      (runDmgEvs ((p.damageCore a k).1) evs).invuln ≤ 0 →
      (0.35 : ℚ) ≤ decayTotal evs) ∧
    (∀ (p : Player) (hits : List (Int × ℚ × ℚ)) (d : Int),
      (∀ h ∈ hits, h.1 ≤ d) → 0 ≤ d → p.hp - (applyHits p hits).hp ≤ d) := by
  have hgrant : ∀ (p : Player) (a : Int) (k : ℚ × ℚ), p.invuln ≤ 0 →
      ((p.damageCore a k).1).invuln = 0.35 := by
    intro p a k h
    rw [damageCore_invuln, if_neg (by linarith)]
  refine ⟨hgrant, ?_, ?_⟩
  · intro p a k evs h hrun
    have h1 := runDmgEvs_invuln_ge ((p.damageCore a k).1) evs
    rw [hgrant p a k h] at h1
    linarith
  · intro p hits d hle hd
    cases hits with
    | nil =>
      simp only [applyHits, List.foldl_nil, sub_self]
      exact_mod_cast hd
    | cons hh rest =>
      by_cases hv : 0 < p.invuln
      · rw [applyHits_of_invuln p _ hv]
        simpa using hd
      · have hfirst : ((p.damageCore hh.1 hh.2).1).hp = p.hp - hh.1 :=
          damageCore_hp_of_vulnerable _ _ _ (by linarith)
        have hinv : (0 : ℚ) < ((p.damageCore hh.1 hh.2).1).invuln := by
          rw [hgrant _ _ _ (by linarith)]
          norm_num
        have hrest : applyHits ((p.damageCore hh.1 hh.2).1) rest =
            (p.damageCore hh.1 hh.2).1 :=
          applyHits_of_invuln _ rest hinv
        simp only [applyHits, List.foldl_cons] at hrest ⊢
        rw [hrest, hfirst]
        have : hh.1 ≤ d := hle hh (List.mem_cons_self hh rest)
        omega

/-- Witness for `c9_invulnerability_window` at concrete inputs: a fresh agent
hit once gets the 0.35 window; a 0.4-second timeline that re-exposes it
indeed spans at least 0.35 seconds; a two-pellet volley of 24 damage each
costs at most 24 health. -/
theorem c9_invulnerability_window_witness :
    ((c9p.damageCore 24 (0, 0)).1).invuln = 0.35 ∧
    (0.35 : ℚ) ≤ decayTotal [DmgEv.decay 0.4] ∧
    c9p.hp - (applyHits c9p [(24, 0, 0), (24, 0, 0)]).hp ≤ 24 := by
  refine ⟨c9_invulnerability_window.1 c9p 24 (0, 0) (by norm_num [c9p]),
    c9_invulnerability_window.2.1 c9p 24 (0, 0) [DmgEv.decay 0.4]
      (by norm_num [c9p]) ?_,
    c9_invulnerability_window.2.2 c9p [(24, 0, 0), (24, 0, 0)] 24 ?_
      (by norm_num)⟩
  · norm_num [c9p, runDmgEvs, applyDmgEv, Player.decayInvuln,
      Player.damageCore, max_def]
  · intro h hm
    rcases List.mem_cons.mp hm with h1 | h1
    · rw [h1]
    · rcases List.mem_cons.mp h1 with h2 | h2
      · rw [h2]
      · simp at h2

/-- Bookkeeping of one beam damage pass: the final hit set is the initial one
extended by exactly the logged indices, an index already hit is never logged
again, and no index is logged twice within the pass. -/
theorem beamAux_spec (bm : Beam) (idxs : List Nat) :
    ∀ (ps : List Player) (hit : List Nat) (i : Nat),
      (i ∈ (beamAux bm idxs ps hit).2.1 ↔
        i ∈ hit ∨ i ∈ (beamAux bm idxs ps hit).2.2) ∧
      (i ∈ hit → i ∉ (beamAux bm idxs ps hit).2.2) ∧
      ((beamAux bm idxs ps hit).2.2).count i ≤ 1 := by
  induction idxs with
  | nil =>
    intro ps hit i
    simp [beamAux]
  | cons j rest ih =>
    intro ps hit i
    unfold beamAux
    split
    · exact ih ps hit i
    · split
      · rename_i hcond
        obtain ⟨ih1, ih2, ih3⟩ := ih
          (damageAt ps j (beamDmgOf ps bm.owner) (bm.cosAng * 80, -60)
            (some bm.owner)) (j :: hit) i
        refine ⟨?_, ?_, ?_⟩
        · rw [ih1]
          simp only [List.mem_cons]
          tauto
        · intro hi hmem
          rcases List.mem_cons.mp hmem with h1 | h1
          · subst h1
            exact hcond.2.2.2 hi
          · exact ih2 (List.mem_cons_of_mem _ hi) h1
        · by_cases hij : i = j
          · subst hij
            have hnot := ih2 (List.mem_cons_self _ _)
            have hz := List.count_eq_zero.mpr hnot
            rw [List.count_cons_self]
            omega
          · rw [List.count_cons_of_ne hij]
            exact ih3
      · exact ih ps hit i

/-- Bookkeeping of one beam tick, lifted from `beamAux_spec`. -/
theorem beamUpdate_spec (bm : Beam) (dt : ℚ) (ps : List Player) (i : Nat) :
    (i ∈ ((bm.update dt ps).1).hit_once ↔
      i ∈ bm.hit_once ∨ i ∈ (bm.update dt ps).2.2.2) ∧
    (i ∈ bm.hit_once → i ∉ (bm.update dt ps).2.2.2) ∧
    ((bm.update dt ps).2.2.2).count i ≤ 1 := by
  unfold Beam.update
  dsimp only
  split
  · exact beamAux_spec _ _ ps bm.hit_once i
  · simp

/-- Over a whole run, an index outside the initial hit set is damaged at most
once, and an index inside it is never damaged again. -/
theorem beamRun_count (bm : Beam) (ps : List Player) (dts : List ℚ) (i : Nat) :
    (i ∉ bm.hit_once → ((Beam.run bm ps dts).2.2).count i ≤ 1) ∧
    (i ∈ bm.hit_once → ((Beam.run bm ps dts).2.2).count i = 0) := by
  induction dts generalizing bm ps with
  | nil => simp [Beam.run]
  | cons dt rest ih =>
    unfold Beam.run
    dsimp only
    obtain ⟨u1, u2, u3⟩ := beamUpdate_spec bm dt ps i
    obtain ⟨r1, r2⟩ := ih ((bm.update dt ps).1) ((bm.update dt ps).2.1)
    rw [List.count_append]
    constructor
    · intro hnot
      by_cases hmem : i ∈ (bm.update dt ps).2.2.2
      · have hin : i ∈ ((bm.update dt ps).1).hit_once := u1.mpr (Or.inr hmem)
        have hz := r2 hin
        omega
      · have hc1 := List.count_eq_zero.mpr hmem
        have hnotin : i ∉ ((bm.update dt ps).1).hit_once := by
          rw [u1]
          push_neg
          exact ⟨hnot, hmem⟩
        have hr := r1 hnotin
        omega
    · intro hin
      have hc1 := List.count_eq_zero.mpr (u2 hin)
      have hin2 : i ∈ ((bm.update dt ps).1).hit_once := u1.mpr (Or.inl hin)
      have hr := r2 hin2
      omega

/-- C3: a freshly cast beam (empty hit record) applies damage to any given
agent at most once over its entire lifetime — any sequence of ticks of any
durations, however many of them its active phase spans. -/
theorem c3_beam_damages_each_agent_at_most_once
    (bm : Beam) (players : List Player) (dts : List ℚ) (i : Nat)
    (hfresh : bm.hit_once = []) :
    ((Beam.run bm players dts).2.2).count i ≤ 1 :=
  (beamRun_count bm players dts i).1 (by simp [hfresh])

/-- Witness for `c3_beam_damages_each_agent_at_most_once` at a concrete
input: a fresh horizontal beam run over two active-phase ticks. -/
theorem c3_beam_damages_each_agent_at_most_once_witness :
    ((Beam.run c3Beam [c3Owner, c3Victim] [0.4, 0.05]).2.2).count 1 ≤ 1 :=
  c3_beam_damages_each_agent_at_most_once c3Beam [c3Owner, c3Victim]
    [0.4, 0.05] 1 rfl

end Arena
